import Mathlib

/-!
Verification development for the tornado-restless repository
(src/tornado_restless/convert.py, helpers.py, api.py).

The Python source is shallowly embedded: Python values become the
inductive `PyVal`, Python exceptions become the error type `PErr`
returned through `Except`, and the mutable state that the source
manipulates (the include tree mutated through `dict.setdefault`, and
the module-level `options = collections.defaultdict(bool)` default
argument) is threaded explicitly.  Recursive functions take a fuel
argument so that every definition is a computable structural
recursion; fuel exhaustion is reported by the artificial error
`PErr.fuelExhausted`, which no theorem below ever relies on.
-/

namespace TRestless

/-- Python exception kinds raised by the embedded code.  The spec's
error taxonomy maps onto these as: UnknownOperatorError = `keyError`,
ArityMismatchError = `typeError`, UnknownFieldError = `attributeError`,
ConflictingProjectionError = `valueError`,
NotARecordError = `dictConvertionError`.  `nameError` models a lookup
of a global name that is not bound in convert.py's module namespace,
and `fuelExhausted` is an artifact of the fuel-based embedding. -/
inductive PErr where
  | typeError (msg : String)
  | valueError (msg : String)
  | keyError (key : String)
  | attributeError (attr : String)
  | nameError (name : String)
  | dictConvertionError (msg : String)
  | fuelExhausted
deriving DecidableEq

/-- Python values, as far as convert.py distinguishes them.
Dictionaries are modelled as insertion-ordered association lists with
string keys (the only keys the source ever uses).  `dt` is a
datetime/date/time value represented by the string its `isoformat()`
returns; `uuidV` is a `uuid.UUID`; `query` is a SQLAlchemy `Query`
object carrying the rows that iterating (executing) it would yield.
`obj` is a mapped SQLAlchemy model instance: the five name lists are,
in order, what `ModelWrapper.get_columns/get_relations/get_proxies/
get_hybrids/get_attributes` return for its mapper (the `ModelWrapper`
class lives in the repository's wrapper.py, which is not among the
sources here, so those getters are modelled from the spec — the
candidate enumeration of spec section 4.4 step 9); `attrs` gives the
result of `getattr(instance, name)` per name, and `matKeys` lists the
keys present in `instance.__dict__` (the already-materialized ones).
Geometry (WKT/WKB) values are not modelled; no claim mentions them. -/
inductive PyVal where
  | none
  | bool (b : Bool)
  | int (n : Int)
  | str (s : String)
  | dt (iso : String)
  | uuidV (s : String)
  | dict (entries : List (String × PyVal))
  | list (elems : List PyVal)
  | query (results : List PyVal)
  | obj (columns relations proxies hybrids attributes : List String)
        (attrs : List (String × PyVal)) (matKeys : List String)

/-- First-match association-list lookup: Python `d[k]` / `d.get(k)` on
the ordered dictionaries of the embedding. -/
def alookup {α : Type} : List (String × α) → String → Option α
  | [], _ => Option.none
  | (k, v) :: rest, key => if k = key then some v else alookup rest key

/-- Python `d[k] = v` on an association-list dictionary: replaces the
value at the first occurrence of `k`, or appends a fresh entry. -/
def dictSet {α : Type} : List (String × α) → String → α → List (String × α)
  | [], key, v => [(key, v)]
  | (k, w) :: rest, key, v =>
    if k = key then (key, v) :: rest else (k, w) :: dictSet rest key v

/-- Test whether the first list is an initial run of the second. -/
def charsMatch : List Char → List Char → Bool
  | [], _ => true
  | _ :: _, [] => false
  | a :: as, b :: bs => a == b && charsMatch as bs

/-- Worker for `pySplit`, consuming at least one character per step so
that the character count suffices as fuel. -/
def splitChars (sep : List Char) : Nat → List Char → List Char → List (List Char)
  | 0, rest, acc => [acc ++ rest]
  | _ + 1, [], acc => [acc]
  | fuel + 1, c :: rest, acc =>
    if charsMatch sep (c :: rest) then
      acc :: splitChars sep fuel (List.drop sep.length (c :: rest)) []
    else splitChars sep fuel rest (acc ++ [c])

/-- Python `str.split(sep)` for a non-empty separator: splits on every
non-overlapping occurrence, left to right. -/
def pySplit (s sep : String) : List String :=
  (splitChars sep.toList (s.toList.length + 1) s.toList []).map String.mk

/-- Python `sep in s` substring test, via the split. -/
def pyContains (s sep : String) : Bool := (pySplit s sep).length > 1

/-- Python truthiness of `relation or fieldname` for an optional
relation string (`None` and the empty string are falsy). -/
def pyStrOr (relation : Option String) (fieldname : String) : String :=
  match relation with
  | some r => if r = "" then fieldname else r
  | Option.none => fieldname

/-- Intermediate values of parse_columns phase 1: `True`, or the list
being accumulated for a relation key. -/
inductive PCVal where
  | top
  | strs (l : List String)

/-- Python `column.split(".", 1)`: split on the first dot only. -/
def pySplit1Dot (s : String) : List String :=
  match pySplit s "." with
  | [] => [s]
  | [x] => [x]
  | x :: rest => [x, String.intercalate "." rest]

/-- Phase 1 of parse_columns (convert.py:413-417): walk the strings;
a single-segment name is assigned `True` (overwriting any previous
entry), a two-segment name appends the remainder to the list created
by `setdefault(head, [])` — calling `.append` on an entry that is
already `True` raises AttributeError, which the embedding reports. -/
def parseColumnsPhase1 : List String → List (String × PCVal) →
    Except PErr (List (String × PCVal))
  | [], acc => .ok acc
  | column :: rest, acc =>
    match pySplit1Dot column with
    | [x] => parseColumnsPhase1 rest (dictSet acc x .top)
    | [x, r] =>
      match alookup acc x with
      | some .top => .error (.attributeError "append")
      | some (.strs l) => parseColumnsPhase1 rest (dictSet acc x (.strs (l ++ [r])))
      | Option.none => parseColumnsPhase1 rest (acc ++ [(x, .strs [r])])
    | _ => .error (.valueError "split maxsplit 1")

/-- Phase 2 of parse_columns (convert.py:420-422): replace every list
value by a recursive parse.  Parameterized by the recursive call so
that the whole development stays a structural recursion on fuel. -/
def parseColumnsPhase2
    (recur : List String → Except PErr PyVal) :
    List (String × PCVal) → Except PErr (List (String × PyVal))
  | [] => .ok []
  | (k, .top) :: rest => do
    let tail ← parseColumnsPhase2 recur rest
    .ok ((k, PyVal.bool true) :: tail)
  | (k, .strs l) :: rest => do
    let sub ← recur l
    let tail ← parseColumnsPhase2 recur rest
    .ok ((k, sub) :: tail)

/-- parse_columns (convert.py:399-425) on a list of strings, with fuel
bounding the nesting depth (one level per dot). -/
def parse_columns_strings : Nat → List String → Except PErr PyVal
  | 0, _ => .error .fuelExhausted
  | fuel + 1, strings => do
    let phase1 ← parseColumnsPhase1 strings []
    let phase2 ← parseColumnsPhase2 (parse_columns_strings fuel) phase1
    .ok (PyVal.dict phase2)

/-- parse_columns including the `strings is None` short-circuit. -/
def parse_columns (fuel : Nat) :
    Option (List String) → Except PErr (Option PyVal)
  | Option.none => .ok Option.none
  | some strings => (parse_columns_strings fuel strings).map some

/-! ## The SQLAlchemy model side: models, attributes, expressions -/

/-- A member of a mapped model class, as `inspect.getmembers` sees it:
a column attribute (`QueryableAttribute` whose property is a
`ColumnProperty`, with its `primary_key` flag) or a relationship
attribute (whose mapper leads to the related model, given by name and
member list). -/
inductive Member where
  | column (primaryKey : Bool)
  | relation (tname : String) (tmembers : List (String × Member))

/-- A SQLAlchemy declarative model: its class name and its attributes
in declaration order. -/
structure SAModel where
  sname : String
  members : List (String × Member)

/-- An `InstrumentedAttribute` obtained by `getattr(model, name)`:
either a column attribute or a relationship attribute carrying the
related model. -/
inductive Attr where
  | colAttr (model field : String)
  | relAttr (model field : String) (target : SAModel)

/-- Python `getattr(model, name)` on a declarative model class. -/
def SAModel.getattr (m : SAModel) (name : String) : Option Attr :=
  (alookup m.members name).map fun
    | .column _ => .colAttr m.sname name
    | .relation tn tm => .relAttr m.sname name ⟨tn, tm⟩

/-- The right-hand side handed to an operator: a literal request value
or another field's accessor (the `otherfield` path). -/
inductive Arg where
  | lit (v : PyVal)
  | attrA (a : Attr)

/-- Python `argument is None` for an operator argument. -/
def Arg.isNone : Arg → Bool
  | .lit .none => true
  | _ => false

/-- The SQLAlchemy expressions the operator lambdas of convert.py
produce.  `descM`/`ascM` model the unbound `f.desc`/`f.asc` method
objects that the `desc`/`asc` table entries return. -/
inductive SqlExpr where
  | attrE (a : Attr)
  | isNullE (f : SqlExpr)
  | isNotNullE (f : SqlExpr)
  | descM (f : SqlExpr)
  | ascM (f : SqlExpr)
  | eqE (f : SqlExpr) (a : Arg)
  | neE (f : SqlExpr) (a : Arg)
  | gtE (f : SqlExpr) (a : Arg)
  | ltE (f : SqlExpr) (a : Arg)
  | geE (f : SqlExpr) (a : Arg)
  | leE (f : SqlExpr) (a : Arg)
  | ilikeE (f : SqlExpr) (a : Arg)
  | likeE (f : SqlExpr) (a : Arg)
  | inE (f : SqlExpr) (a : Arg)
  | notE (e : SqlExpr)
  | hasE (f : Attr) (inner : SqlExpr)
  | anyE (f : Attr) (inner : SqlExpr)

/-- One entry of the OPERATORS table: the stored lambda, tagged by the
number of parameters `inspect.getargspec(opfunc)` would report. -/
inductive OpSpec where
  | op1 (sem : SqlExpr → SqlExpr)
  | op2 (sem : SqlExpr → Arg → SqlExpr)
  | op3 (sem : Attr → SqlExpr → SqlExpr)

/-- OPERATORS (convert.py:151-187), in source order.  Each entry
mirrors the corresponding lambda. -/
def OPERATORS : List (String × OpSpec) := [
  ("is_null", .op1 fun f => .isNullE f),
  ("is_not_null", .op1 fun f => .isNotNullE f),
  ("desc", .op1 fun f => .descM f),
  ("asc", .op1 fun f => .ascM f),
  ("==", .op2 fun f a => .eqE f a),
  ("eq", .op2 fun f a => .eqE f a),
  ("equals", .op2 fun f a => .eqE f a),
  ("equal_to", .op2 fun f a => .eqE f a),
  ("!=", .op2 fun f a => .neE f a),
  ("ne", .op2 fun f a => .neE f a),
  ("neq", .op2 fun f a => .neE f a),
  ("not_equal_to", .op2 fun f a => .neE f a),
  ("does_not_equal", .op2 fun f a => .neE f a),
  (">", .op2 fun f a => .gtE f a),
  ("gt", .op2 fun f a => .gtE f a),
  ("<", .op2 fun f a => .ltE f a),
  ("lt", .op2 fun f a => .ltE f a),
  (">=", .op2 fun f a => .geE f a),
  ("ge", .op2 fun f a => .geE f a),
  ("gte", .op2 fun f a => .geE f a),
  ("geq", .op2 fun f a => .geE f a),
  ("<=", .op2 fun f a => .leE f a),
  ("le", .op2 fun f a => .leE f a),
  ("lte", .op2 fun f a => .leE f a),
  ("leq", .op2 fun f a => .leE f a),
  ("ilike", .op2 fun f a => .ilikeE f a),
  ("like", .op2 fun f a => .likeE f a),
  ("in", .op2 fun f a => .inE f a),
  ("not_in", .op2 fun f a => .notE (.inE f a)),
  ("has", .op3 fun f inner => .hasE f inner),
  ("any", .op3 fun f inner => .anyE f inner)]

/-- The message of the TypeError raised for a missing argument
(convert.py:244-245). -/
def nullCompareMsg : String :=
  "To compare a value to NULL, use the is_null/is_not_null operators."

/-- _sub_operator (convert.py:127-148), parameterized by the recursive
call into `_create_operation` so the recursion stays structural in the
fuel.  The first isinstance arm applies to every InstrumentedAttribute:
for a plain column attribute `model.property.mapper` raises
AttributeError (a ColumnProperty has no mapper); for a relationship it
yields the related class.  The AssociationProxy arm is not modelled
(no proxy attributes occur in the embedded models).  A dict argument
re-enters `_create_operation`; note the legacy branch compares
`getattr(submodel, fieldname)` to the bare argument with `==`. -/
def _sub_operator
    (createOp : SAModel → String → String → Arg → Option String → Except PErr SqlExpr)
    (model : Attr) (argument : Arg) (fieldname : String) : Except PErr SqlExpr :=
  match model with
  | .colAttr _ _ => .error (.attributeError "mapper")
  | .relAttr _ _ submodel =>
    match argument with
    | .lit (.dict es) =>
      match alookup es "name" with
      | Option.none => .error (.keyError "name")
      | some (.str fieldname') =>
        match alookup es "op" with
        | Option.none => .error (.keyError "op")
        | some (.str operator) =>
          let argument' := (alookup es "val").getD .none
          if pyContains fieldname' "__" then
            match pySplit fieldname' "__" with
            | [fn, rel] => createOp submodel fn operator (.lit argument') (some rel)
            | _ => .error (.valueError "too many values to unpack")
          else createOp submodel fieldname' operator (.lit argument') Option.none
        | some _ => .error (.keyError "op")
      | some _ => .error (.typeError "argument of type is not iterable")
    | _ =>
      match submodel.getattr fieldname with
      | Option.none => .error (.attributeError fieldname)
      | some a => .ok (.eqE (.attrE a) argument)

/-- QueryBuilder._create_operation (convert.py:197-249).  Looks the
operator up in OPERATORS (KeyError when unknown), resolves
`getattr(model, relation or fieldname)` (AttributeError when absent),
and dispatches on the stored lambda's parameter count: one-parameter
lambdas are applied to the field alone — a supplied argument is simply
not passed; otherwise a None argument raises the TypeError of
convert.py:243-246, then two-parameter lambdas get (field, argument)
and three-parameter ones get (field, argument, fieldname), the latter
recursing through `_sub_operator`. -/
def _create_operation :
    Nat → SAModel → String → String → Arg → Option String → Except PErr SqlExpr
  | 0, _, _, _, _, _ => .error .fuelExhausted
  | fuel + 1, model, fieldname, operator, argument, relation =>
    match alookup OPERATORS operator with
    | Option.none => .error (.keyError operator)
    | some opfunc =>
      match model.getattr (pyStrOr relation fieldname) with
      | Option.none => .error (.attributeError (pyStrOr relation fieldname))
      | some field =>
        match opfunc with
        | .op1 sem => .ok (sem (.attrE field))
        | .op2 sem =>
          if argument.isNone then .error (.typeError nullCompareMsg)
          else .ok (sem (.attrE field) argument)
        | .op3 sem =>
          if argument.isNone then .error (.typeError nullCompareMsg)
          else
            match _sub_operator (_create_operation fuel) field argument fieldname with
            | .error e => .error e
            | .ok inner => .ok (sem field inner)

/-! ## Filter objects and their compilation -/

/-- The Filter class hierarchy (convert.py:33-124): a plain Filter
carrying the four constructor attributes, or a Conjunction/Disjunction
junction carrying subfilters.  A plain `Filter` defines no
`__getitem__`. -/
inductive Filter where
  | leaf (fieldname operatorName argument otherfield : PyVal)
  | conj (subfilters : List Filter)
  | disj (subfilters : List Filter)

/-- Maps `Filter.from_dictionary` over a subfilter list,
parameterized by the recursive call. -/
def fromDictList (recur : PyVal → Except PErr Filter) :
    List PyVal → Except PErr (List Filter)
  | [] => .ok []
  | d :: rest => do
    let f ← recur d
    let tail ← fromDictList recur rest
    .ok (f :: tail)

/-- Filter.from_dictionary (convert.py:66-107).  Without an 'or' or
'and' key, builds a leaf from the 'name'/'op'/'val'/'field' entries
(each defaulting to None via dict.get); with one, recurses over the
provided subfilter list ('or' checked first). -/
def from_dictionary : Nat → PyVal → Except PErr Filter
  | 0, _ => .error .fuelExhausted
  | fuel + 1, dictionary =>
    match dictionary with
    | .dict es =>
      if (alookup es "or").isNone && (alookup es "and").isNone then
        .ok (.leaf ((alookup es "name").getD .none) ((alookup es "op").getD .none)
                   ((alookup es "val").getD .none) ((alookup es "field").getD .none))
      else
        match alookup es "or" with
        | some (.list subfilters) =>
          (fromDictList (from_dictionary fuel) subfilters).map .disj
        | some _ => .error (.typeError "subfilters not iterable")
        | Option.none =>
          match alookup es "and" with
          | some (.list subfilters) =>
            (fromDictList (from_dictionary fuel) subfilters).map .conj
          | some _ => .error (.typeError "subfilters not iterable")
          | Option.none => .error (.typeError "unreachable")
    | _ => .error (.typeError "membership test on non-mapping")

/-- What QueryBuilder._create_filter may be handed at runtime: a
Filter instance (what `from_dictionary` builds) or a raw request
dictionary. -/
inductive FiltVal where
  | fobj (f : Filter)
  | fdict (entries : List (String × PyVal))

/-- Python truthiness, for `if filt.get('otherfield'):`. -/
def pyTruthy : PyVal → Bool
  | .none => false
  | .bool b => b
  | .int n => n != 0
  | .str s => s != ""
  | .dt _ => true
  | .uuidV _ => true
  | .dict es => !es.isEmpty
  | .list xs => !xs.isEmpty
  | .query _ => true
  | .obj _ _ _ _ _ _ _ => true

/-- QueryBuilder._create_filter (convert.py:251-279).  A junction
filter is combined with `and_(...)`/`or_(...)` — names convert.py
never imports, so reaching either arm raises NameError.  A non-junction
filter is subscripted: `filt['name']` and `filt['value']` — a TypeError
on a Filter instance (the class defines no `__getitem__`), and on a
dictionary a lookup of the literal keys 'name' and 'value' (KeyError
when absent; note the wire format of `from_dictionary` carries 'val',
not 'value').  The field name is then split on every occurrence of
'__' and unpacked into exactly two names (ValueError otherwise), the
otherfield accessor replaces the value when truthy, and the operator
entry `filt['op']` is passed to `_create_operation`. -/
def _create_filter (fuel : Nat) (model : SAModel) (filt : FiltVal) :
    Except PErr SqlExpr :=
  match filt with
  | .fobj (.conj _) => .error (.nameError "and_")
  | .fobj (.disj _) => .error (.nameError "or_")
  | .fobj (.leaf _ _ _ _) => .error (.typeError "'Filter' object is unsubscriptable")
  | .fdict es =>
    match alookup es "name" with
    | Option.none => .error (.keyError "name")
    | some fnameV =>
      match alookup es "value" with
      | Option.none => .error (.keyError "value")
      | some val =>
        match fnameV with
        | .str fname =>
          let split : Except PErr (Option String × String) :=
            if pyContains fname "__" then
              match pySplit fname "__" with
              | [rel, fn] => .ok (some rel, fn)
              | _ => .error (.valueError "too many values to unpack")
            else .ok (Option.none, fname)
          match split with
          | .error e => .error e
          | .ok (relation, fname') =>
            let otherfieldV := (alookup es "otherfield").getD .none
            let valArg : Except PErr Arg :=
              if pyTruthy otherfieldV then
                match otherfieldV with
                | .str ofn =>
                  match model.getattr ofn with
                  | Option.none => .error (.attributeError ofn)
                  | some a => .ok (.attrA a)
                | _ => .error (.typeError "attribute name must be string")
              else .ok (.lit val)
            match valArg with
            | .error e => .error e
            | .ok arg =>
              match alookup es "op" with
              | Option.none => .error (.keyError "op")
              | some (.str op) => _create_operation fuel model fname' op arg relation
              | some _ => .error (.keyError "op")
        | _ => .error (.typeError "argument of type is not iterable")

/-! ## Ordering, grouping and query construction -/

/-- Python string comparison on character lists: lexicographic by
code point. -/
def pyCharsLE : List Char → List Char → Bool
  | [], _ => true
  | _ :: _, [] => false
  | a :: as, b :: bs =>
    if a.toNat < b.toNat then true
    else if b.toNat < a.toNat then false
    else pyCharsLE as bs

/-- Python `a <= b` on strings. -/
def pyStrLE (a b : String) : Bool := pyCharsLE a.toList b.toList

/-- inspect.getmembers (helpers.py:167): returns the model's members
sorted by name (`inspect.getmembers` sorts its result list; member
names are distinct on a real class, so tuple comparison is name
comparison).  Python's stable sort is modelled by insertion sort. -/
def getmembers (m : SAModel) : List (String × Member) :=
  List.insertionSort (fun a b => pyStrLE a.1 b.1 = true) m.members

/-- The predicate of helpers.py:168-170: a QueryableAttribute whose
property is a ColumnProperty with the primary_key flag set.  A
relationship attribute is a QueryableAttribute too, but its property
is a RelationshipProperty, not a ColumnProperty. -/
def isPkColumn : Member → Bool
  | .column true => true
  | _ => false

/-- primary_key_names (helpers.py:165-170): all primary-key column
names of a model, in the (sorted) order `inspect.getmembers` yields. -/
def primary_key_names (model : SAModel) : List String :=
  ((getmembers model).filter fun kv => isPkColumn kv.2).map Prod.fst

/-- Modelled from the spec: the ordering the spec asserts for the
default case — the model's primary-key fields "in the order in which
those fields are declared on the model".  Stated only to compare with
the source's `primary_key_names`. -/
def declared_primary_key_names (m : SAModel) : List String :=
  (m.members.filter fun kv => isPkColumn kv.2).map Prod.fst

/-- The search parameters create_query consumes (the SearchParameters
class lives in the repository's handler code, outside convert.py):
filters, `order_by` entries with a `field` and a `direction` name
("asc"/"desc"), `group_by` field names, and limit/offset, `None` or a
number (Python truthiness: 0 counts as unset). -/
structure SearchParams where
  filters : List FiltVal
  order_by : List (String × String)
  group_by : List String
  limit : Option Nat
  offset : Option Nat

/-- The query object built by create_query, recording what each
SQLAlchemy call contributed: filter criteria, joined models, order_by
criteria (attribute plus direction method name), group_by attributes
and limit/offset. -/
structure QueryPlan where
  qmodel : String
  filters : List SqlExpr
  joins : List String
  orderBy : List (Attr × String)
  groupBy : List Attr
  qlimit : Option Nat
  qoffset : Option Nat

/-- The filter list comprehension of convert.py:308, left to right,
aborting at the first exception. -/
def createFilters (fuel : Nat) (model : SAModel) :
    List FiltVal → Except PErr (List SqlExpr)
  | [] => .ok []
  | filt :: rest => do
    let e ← _create_filter fuel model filt
    let tail ← createFilters fuel model rest
    .ok (e :: tail)

/-- `getattr(field, direction)` for an order_by entry: only the asc
and desc methods exist on a column attribute. -/
def directionMethod (direction : String) : Except PErr String :=
  if direction = "asc" ∨ direction = "desc" then .ok direction
  else .error (.attributeError direction)

/-- The order_by loop of convert.py:317-331: a dotted field name is
split on every `__` and unpacked into exactly two names, the relation
is resolved on the model and must have a mapper (AttributeError on a
plain column), the related model is joined and the related field
ordered; an undotted name orders by the model's own field. -/
def orderByLoop (model : SAModel) :
    List (String × String) → QueryPlan → Except PErr QueryPlan
  | [], q => .ok q
  | (field_name, direction) :: rest, q =>
    if pyContains field_name "__" then
      match pySplit field_name "__" with
      | [fn, fnInRel] =>
        match model.getattr fn with
        | Option.none => .error (.attributeError fn)
        | some (.colAttr _ _) => .error (.attributeError "mapper")
        | some (.relAttr _ _ relationModel) =>
          match relationModel.getattr fnInRel with
          | Option.none => .error (.attributeError fnInRel)
          | some field => do
            let dir ← directionMethod direction
            orderByLoop model rest
              { q with joins := q.joins ++ [relationModel.sname],
                       orderBy := q.orderBy ++ [(field, dir)] }
      | _ => .error (.valueError "too many values to unpack")
    else
      match model.getattr field_name with
      | Option.none => .error (.attributeError field_name)
      | some field => do
        let dir ← directionMethod direction
        orderByLoop model rest { q with orderBy := q.orderBy ++ [(field, dir)] }

/-- The default ordering of convert.py:332-335: ascending by every
primary-key field, via `getattr(model, field).asc()`. -/
def pkOrderLoop (model : SAModel) : List String → Except PErr (List (Attr × String))
  | [] => .ok []
  | f :: rest =>
    match model.getattr f with
    | Option.none => .error (.attributeError f)
    | some a => do
      let tail ← pkOrderLoop model rest
      .ok ((a, "asc") :: tail)

/-- The group_by loop of convert.py:338-341. -/
def groupByLoop (model : SAModel) : List String → QueryPlan → Except PErr QueryPlan
  | [], q => .ok q
  | g :: rest, q =>
    match model.getattr g with
    | Option.none => .error (.attributeError g)
    | some field => groupByLoop model rest { q with groupBy := q.groupBy ++ [field] }

/-- Python truthiness of the optional limit/offset numbers. -/
def natTruthy : Option Nat → Bool
  | some n => n != 0
  | Option.none => false

/-- QueryBuilder.create_query (convert.py:281-349): filter, then
order (explicit order_by entries, or by default ascending primary-key
order unless `_ignore_order_by`), then group, then limit, then
offset. -/
def create_query (fuel : Nat) (model : SAModel) (search_params : SearchParams)
    (ignore_order_by : Bool) : Except PErr QueryPlan := do
  let q0 : QueryPlan :=
    ⟨model.sname, [], [], [], [], Option.none, Option.none⟩
  let filters ← createFilters fuel model search_params.filters
  let q1 := { q0 with filters := filters }
  let q2 ←
    if ignore_order_by then .ok q1
    else if !search_params.order_by.isEmpty then
      orderByLoop model search_params.order_by q1
    else do
      let pkOrder ← pkOrderLoop model (primary_key_names model)
      .ok { q1 with orderBy := pkOrder }
  let q3 ← groupByLoop model search_params.group_by q2
  let q4 := if natTruthy search_params.limit
    then { q3 with qlimit := search_params.limit } else q3
  let q5 := if natTruthy search_params.offset
    then { q4 with qoffset := search_params.offset } else q4
  .ok q5

/-- Search parameters carrying no filter, order, group or window. -/
def emptySearch : SearchParams := ⟨[], [], [], Option.none, Option.none⟩

/-! ## Concrete models used by the witnesses and counterexamples -/

/-- A model with two non-primary-key columns. -/
def Mperson : SAModel :=
  ⟨"Person", [("age", .column false), ("name", .column false)]⟩

/-- A model whose two primary-key columns are declared in
non-alphabetical order. -/
def Mdecl : SAModel := ⟨"T", [("b", .column true), ("a", .column true)]⟩

/-- A model with a relationship attribute `author` to a related model
with a `name` column. -/
def Mpost : SAModel :=
  ⟨"Post", [("author", .relation "Person2" [("name", Member.column false)]),
            ("title", .column false)]⟩

/-! ## C1: the documented filter pipeline -/

/-- The filter dictionary of the claim:
`{or: [{and: [{name: age, op: lt, val: 20}, {name: name, op: like,
val: %y%}]}, {name: name, op: eq, val: John}]}`. -/
def c1FilterDict : PyVal := .dict [("or", .list [
  .dict [("and", .list [
    .dict [("name", .str "age"), ("op", .str "lt"), ("val", .int 20)],
    .dict [("name", .str "name"), ("op", .str "like"), ("val", .str "%y%")]])],
  .dict [("name", .str "name"), ("op", .str "eq"), ("val", .str "John")]])]

/-- The Filter object `from_dictionary` builds for `c1FilterDict`. -/
def c1Filter : Filter := .disj [
  .conj [.leaf (.str "age") (.str "lt") (.int 20) .none,
         .leaf (.str "name") (.str "like") (.str "%y%") .none],
  .leaf (.str "name") (.str "eq") (.str "John") .none]

/-- The field names a plan orders by, in order. -/
def orderFieldNames (p : QueryPlan) : List String :=
  p.orderBy.map fun ad => match ad.1 with
    | .colAttr _ f => f
    | .relAttr _ f _ => f

/-! ## The projection serializer: to_deep and to_dict -/

/-- Python `x is None` on an embedded value. -/
def isNoneV : PyVal → Bool
  | .none => true
  | _ => false

/-- Python `x is False` on an embedded value (identity with the False
singleton, so only the boolean False itself). -/
def isFalseV : PyVal → Bool
  | .bool false => true
  | _ => false

/-- Python `isinstance(x, Query)`. -/
def isQueryV : PyVal → Bool
  | .query _ => true
  | _ => false

/-- Whether a value is a dictionary. -/
def isDictV : PyVal → Bool
  | .dict _ => true
  | _ => false

/-- The options dictionary of to_dict: the module-level
`collections.defaultdict(bool)` default argument, shared by every call
that does not pass its own options — which is every call the theorems
below consider, so a single threaded state models it exactly.
`get` is `dict.get(key, default)` (never inserts); `getitem` is
`options[key]`, which on a defaultdict inserts and returns `bool()`,
i.e. False, for a missing key. -/
structure Opts where
  entries : List (String × Bool)

/-- `options.get(key, default)`. -/
def Opts.get (o : Opts) (key : String) (default : Bool) : Bool :=
  (alookup o.entries key).getD default

/-- `options[key]` on a defaultdict(bool): returns the stored value,
or inserts and returns False. -/
def Opts.getitem (o : Opts) (key : String) : Bool × Opts :=
  match alookup o.entries key with
  | some b => (b, o)
  | Option.none => (false, ⟨o.entries ++ [(key, false)]⟩)

/-- The ValueError message of convert.py:489. -/
def conflictMsg : String := "Cannot specify both inc and exc."

/-- The result of to_deep: the child include and exclude scopes, the
parent include tree after the `setdefault` side effect, and whether
the child inc value aliases an entry of the parent tree (so that
the child call's mutations must be written back into the parent). -/
structure DeepRes where
  dinc : PyVal
  dexc : PyVal
  parentInc : PyVal
  wb : Bool

/-- to_deep (convert.py:446-469).  `include.setdefault(key, False)`
reads the entry, inserting False for a missing key; on a non-dict
inc the AttributeError is caught and the child inc is False.
`exc[key]` forces the child inc to None when it succeeds; a
TypeError (non-dict exc) or KeyError (missing key) is caught and
the child exclude is None.  Exclude is never written. -/
def to_deep (inc exc : PyVal) (key : String) : DeepRes :=
  let step1 : PyVal × PyVal × Bool :=
    match inc with
    | .dict es =>
      match alookup es key with
      | some v => (v, .dict es, true)
      | Option.none => (.bool false, .dict (es ++ [(key, .bool false)]), true)
    | other => (.bool false, other, false)
  match exc with
  | .dict es2 =>
    match alookup es2 key with
    | some ev => ⟨.none, ev, step1.2.1, false⟩
    | Option.none => ⟨step1.1, .none, step1.2.1, step1.2.2⟩
  | _ => ⟨step1.1, .none, step1.2.1, step1.2.2⟩

/-- Writes a child include tree back into the parent include tree
entry it aliases (simulating that both are the same Python object). -/
def incWriteBack (parentInc : PyVal) (key : String) (childInc : PyVal) : PyVal :=
  match parentInc with
  | .dict es => .dict (dictSet es key childInc)
  | other => other

/-- The result of a to_dict call: the value or exception, together
with the include tree and the shared options dictionary as the call
leaves them. -/
abbrev SerRes := Except PErr PyVal × PyVal × Opts

/-- The dictionary comprehension of convert.py:513, entry by entry:
each value is serialized under the scope `to_deep` narrows for its
key, with the inc-tree side effects threaded through. -/
def itemsLoop (child : PyVal → Opts → PyVal → PyVal → SerRes) :
    List (String × PyVal) → Opts → PyVal → PyVal → List (String × PyVal) → SerRes
  | [], opts, inc, _, acc => (.ok (.dict acc), inc, opts)
  | (k, v) :: rest, opts, inc, exc, acc =>
    let td := to_deep inc exc k
    match child v opts td.dinc td.dexc with
    | (r, childInc, opts2) =>
      let include2 := if td.wb then incWriteBack td.parentInc k childInc else td.parentInc
      match r with
      | .error e => (.error e, include2, opts2)
      | .ok rv => itemsLoop child rest opts2 include2 exc (dictSet acc k rv)

/-- The list comprehension of convert.py:517: every element is
serialized under the same inc/exc scope. -/
def elemsLoop (child : PyVal → Opts → PyVal → PyVal → SerRes) :
    List PyVal → Opts → PyVal → PyVal → List PyVal → SerRes
  | [], opts, inc, _, acc => (.ok (.list acc), inc, opts)
  | x :: rest, opts, inc, exc, acc =>
    match child x opts inc exc with
    | (r, include2, opts2) =>
      match r with
      | .error e => (.error e, include2, opts2)
      | .ok rv => elemsLoop child rest opts2 include2 exc (acc ++ [rv])

/-- The explicit-include loop of convert.py:520-524: iterate the keys
of the include tree, fetch each attribute (AttributeError when
absent) and serialize it under the narrowed scope.  No options are
passed, i.e. the shared default dictionary is used — the threaded
one. -/
def includeColsLoop (child : PyVal → Opts → PyVal → PyVal → SerRes)
    (attrVals : List (String × PyVal)) :
    List String → Opts → PyVal → PyVal → List (String × PyVal) → SerRes
  | [], opts, inc, _, acc => (.ok (.dict acc), inc, opts)
  | column :: rest, opts, inc, exc, acc =>
    match alookup attrVals column with
    | Option.none => (.error (.attributeError column), inc, opts)
    | some node =>
      let td := to_deep inc exc column
      match child node opts td.dinc td.dexc with
      | (r, childInc, opts2) =>
        let include2 :=
          if td.wb then incWriteBack td.parentInc column childInc else td.parentInc
        match r with
        | .error e => (.error e, include2, opts2)
        | .ok rv => includeColsLoop child attrVals rest opts2 include2 exc
            (dictSet acc column rv)

/-- The attribute loop of convert.py:540-567 over the candidate chain.
Per column: (a) skip when the exc mapping holds True for it (a
membership test on a non-mapping, non-None exclude raises TypeError);
(b) skip when already emitted; (c) skip when inc is exactly False
and the name is neither a hybrid nor a column; (d) skip when the
attribute is unmaterialized and execute_queries reads False — via
`options.get('execute_queries', True)`, defaulting to True — unless a
hybrid with execute_hybrids; (e) fetch the attribute (AttributeError
when absent); (f) skip an unexecuted Query when inc is False, and
otherwise consult `options['execute_queries']` — the defaultdict
lookup that inserts and yields False for a missing key — executing
the query only when it reads True; (g) serialize under the narrowed
scope of to_deep and store the result. -/
def recordLoop (child : PyVal → Opts → PyVal → PyVal → SerRes)
    (columns hybrids : List String) (attrVals : List (String × PyVal))
    (matKeys : List String) :
    List String → Opts → PyVal → PyVal → List (String × PyVal) → SerRes
  | [], opts, inc, _, acc => (.ok (.dict acc), inc, opts)
  | column :: rest, opts, inc, exc, acc =>
    let skipExc : Except PErr Bool :=
      match exc with
      | .none => .ok false
      | .dict es =>
        .ok (match alookup es column with
             | some (.bool true) => true
             | _ => false)
      | _ => .error (.typeError "argument of type is not iterable")
    match skipExc with
    | .error e => (.error e, inc, opts)
    | .ok true => recordLoop child columns hybrids attrVals matKeys rest opts inc exc acc
    | .ok false =>
      if (alookup acc column).isSome then
        recordLoop child columns hybrids attrVals matKeys rest opts inc exc acc
      else if isFalseV inc && !(hybrids.contains column) && !(columns.contains column) then
        recordLoop child columns hybrids attrVals matKeys rest opts inc exc acc
      else if (!(matKeys.contains column) && !(opts.get "execute_queries" true))
          && (!(hybrids.contains column) || !(opts.get "execute_hybrids" true)) then
        recordLoop child columns hybrids attrVals matKeys rest opts inc exc acc
      else
        match alookup attrVals column with
        | Option.none => (.error (.attributeError column), inc, opts)
        | some node =>
          if isFalseV inc && isQueryV node then
            recordLoop child columns hybrids attrVals matKeys rest opts inc exc acc
          else
            let step : PyVal × Opts :=
              if isQueryV node then
                match opts.getitem "execute_queries" with
                | (b, o2) =>
                  if b then
                    (match node with
                     | .query rs => PyVal.list rs
                     | other => other, o2)
                  else (node, o2)
              else (node, opts)
            match step with
            | (node2, opts2) =>
              let td := to_deep inc exc column
              match child node2 opts2 td.dinc td.dexc with
              | (r, childInc, opts3) =>
                let include2 :=
                  if td.wb then incWriteBack td.parentInc column childInc
                  else td.parentInc
                match r with
                | .error e => (.error e, include2, opts3)
                | .ok rv => recordLoop child columns hybrids attrVals matKeys rest
                    opts3 include2 exc (dictSet acc column rv)

/-- to_dict (convert.py:472-567).  The first statement rejects a call
with both inc and exc non-None (ValueError, before anything
else happens).  Then the classification cascade: None and primitives
are returned as they are, temporal and UUID values as their canonical
strings, mappings and iterables (lists, and Query objects, whose
iteration executes them) recurse per entry, a dict-shaped include on a
model inst drives the explicit-inc loop, and otherwise the
inst's candidate attributes — columns, relations, proxies,
hybrids, other attributes, in that chain order — are walked by
`recordLoop`.  Options are the shared module-level default dictionary,
threaded through every call (the source passes the same object along
at convert.py:513/517 and falls back to it at convert.py:523/566). -/
def to_dict : Nat → PyVal → Opts → PyVal → PyVal → SerRes
  | fuel, inst, opts, inc, exc =>
    if !(isNoneV exc) && !(isNoneV inc) then
      (.error (.valueError conflictMsg), inc, opts)
    else match fuel with
    | 0 => (.error .fuelExhausted, inc, opts)
    | fuel + 1 =>
      match inst with
      | .none => (.ok .none, inc, opts)
      | .bool b => (.ok (.bool b), inc, opts)
      | .int n => (.ok (.int n), inc, opts)
      | .str s => (.ok (.str s), inc, opts)
      | .dt iso => (.ok (.str iso), inc, opts)
      | .uuidV u => (.ok (.str u), inc, opts)
      | .dict es => itemsLoop (to_dict fuel) es opts inc exc []
      | .list xs => elemsLoop (to_dict fuel) xs opts inc exc []
      | .query rs => elemsLoop (to_dict fuel) rs opts inc exc []
      | .obj columns relations proxies hybrids attributes attrVals matKeys =>
        match inc with
        | .dict ies =>
          includeColsLoop (to_dict fuel) attrVals (ies.map Prod.fst) opts
            (.dict ies) exc []
        | _ =>
          recordLoop (to_dict fuel) columns hybrids attrVals matKeys
            (columns ++ relations ++ proxies ++ hybrids ++ attributes)
            opts inc exc []

/-! A small structural size for PyVal, used as a fuel bound. -/

mutual

/-- Structural size of a value. -/
def psize : PyVal → Nat
  | .none => 1
  | .bool _ => 1
  | .int _ => 1
  | .str _ => 1
  | .dt _ => 1
  | .uuidV _ => 1
  | .dict es => 1 + psizeEntries es
  | .list xs => 1 + psizeList xs
  | .query rs => 1 + psizeList rs
  | .obj _ _ _ _ _ attrVals _ => 1 + psizeEntries attrVals
/-- Structural size of dictionary entries. -/
def psizeEntries : List (String × PyVal) → Nat
  | [] => 0
  | kv :: rest => 1 + psize kv.2 + psizeEntries rest
/-- Structural size of a value list. -/
def psizeList : List PyVal → Nat
  | [] => 0
  | x :: rest => 1 + psize x + psizeList rest
end

/-- Already-plain values: null, primitives, and nested
mappings/sequences of plain values.  A plain mapping has distinct
keys, as every Python dictionary does. -/
inductive Plain : PyVal → Prop where
  | noneP : Plain .none
  | boolP (b : Bool) : Plain (.bool b)
  | intP (n : Int) : Plain (.int n)
  | strP (s : String) : Plain (.str s)
  | dictP (es : List (String × PyVal)) (hnd : (es.map Prod.fst).Nodup)
      (h : ∀ kv ∈ es, Plain kv.2) : Plain (.dict es)
  | listP (xs : List PyVal) (h : ∀ x ∈ xs, Plain x) : Plain (.list xs)

/-- The serializer record used by the C9 analysis: a mapped instance
with a materialized column `id`, a relationship `email` whose value is
an unexecuted Query, and a further unmaterialized attribute `notes`. -/
def R9 : PyVal := .obj ["id"] ["email"] [] [] ["notes"]
  [("id", .int 1), ("email", .query [.str "a@b"]), ("notes", .str "n")] ["id"]

/-- An example plain value for the C8 witness. -/
def plainSample : PyVal := .dict [("a", .int 1), ("b", .list [.none, .str "x"])]

/-! ## Theorems -/

/-- C7: parsing the dotted include-path list
`["author.name", "author.email", "title"]` yields the Projection Tree
`{author: {name: true, email: true}, title: true}`: each string is
split on its first dot and entries sharing a first segment are merged
into one nested subtree. -/
theorem C7_parse_columns_round_trip :
    parse_columns 2 (some ["author.name", "author.email", "title"]) =
      .ok (some (.dict
        [("author", .dict [("name", .bool true), ("email", .bool true)]),
         ("title", .bool true)])) := rfl

/-- C1: the claim's filter parses into the expected nested
Disjunction/Conjunction Filter object, but compiling it does not
succeed: `_create_filter` on a junction calls `or_`/`and_`, names that
convert.py never imports (NameError), and on a leaf Filter instance it
evaluates `filt['name']` although the Filter class defines no
`__getitem__` (TypeError).  No query plan with the claimed predicate
is ever produced. -/
theorem C1_pipeline_crashes :
    from_dictionary 3 c1FilterDict = .ok c1Filter ∧
    _create_filter 1 Mperson (.fobj c1Filter) = .error (.nameError "or_") ∧
    _create_filter 1 Mperson (.fobj (.leaf (.str "age") (.str "lt") (.int 20) .none)) =
      .error (.typeError "'Filter' object is unsubscriptable") :=
  ⟨rfl, rfl, rfl⟩

/-! ## C2: default ordering -/

/-- Association lookup finds any entry of a list whose keys are
distinct. -/
theorem alookup_of_mem_nodup {α : Type} {l : List (String × α)} {k : String} {v : α}
    (hmem : (k, v) ∈ l) (hnd : (l.map Prod.fst).Nodup) : alookup l k = some v := by
  induction l with
  | nil => cases hmem
  | cons hd tl ih =>
    obtain ⟨hk, hv⟩ := hd
    simp only [List.map_cons, List.nodup_cons] at hnd
    rcases List.mem_cons.mp hmem with heq | hmem2
    · cases heq
      simp [alookup]
    · have hne : hk ≠ k := fun h => hnd.1 (by
        rw [h]
        exact List.mem_map.mpr ⟨(k, v), hmem2, rfl⟩)
      simp only [alookup, hne, if_false]
      exact ih hmem2 hnd.2

/-- Every name produced by `primary_key_names` is a primary-key column
member of the model. -/
theorem pk_mem_members {m : SAModel} {f : String} (hf : f ∈ primary_key_names m) :
    (f, Member.column true) ∈ m.members := by
  unfold primary_key_names at hf
  obtain ⟨kv, hkv, hfst⟩ := List.mem_map.mp hf
  obtain ⟨hmem, hpk⟩ := List.mem_filter.mp hkv
  have hmem2 : kv ∈ m.members :=
    ((List.perm_insertionSort _ m.members).mem_iff).mp hmem
  obtain ⟨k2, v2⟩ := kv
  cases hfst
  cases v2 with
  | column b =>
    cases b with
    | true => exact hmem2
    | false => simp [isPkColumn] at hpk
  | relation _ _ => simp [isPkColumn] at hpk

/-- On a model with distinct member names, `getattr` of a primary-key
name yields that column attribute. -/
theorem getattr_of_pk {m : SAModel} {f : String}
    (hnd : (m.members.map Prod.fst).Nodup) (hf : f ∈ primary_key_names m) :
    m.getattr f = some (.colAttr m.sname f) := by
  unfold SAModel.getattr
  rw [alookup_of_mem_nodup (pk_mem_members hf) hnd]
  rfl

/-- The default-order generator succeeds on fields `getattr` can
resolve, yielding ascending order per field. -/
theorem pkOrderLoop_ok {m : SAModel} : ∀ {l : List String},
    (∀ f ∈ l, m.getattr f = some (.colAttr m.sname f)) →
    pkOrderLoop m l = .ok (l.map fun f => (Attr.colAttr m.sname f, "asc")) := by
  intro l
  induction l with
  | nil => intro _; rfl
  | cons hd tl ih =>
    intro h
    rw [pkOrderLoop, h hd (by simp)]
    rw [ih fun f hf => h f (List.mem_cons_of_mem _ hf)]
    rfl

/-- C2 (amended): with an empty search specification, the compiled
query plan orders ascending by the model's primary-key fields in the
order `primary_key_names` yields them — which is the alphabetically
sorted member order of `inspect.getmembers`, not declaration order.
The compile is a pure function of the model, so repeated compiles give
the same ordering. -/
theorem C2_default_order_sorted_pk (fuel : Nat) (m : SAModel)
    (hnd : (m.members.map Prod.fst).Nodup) :
    create_query fuel m emptySearch false =
      .ok ⟨m.sname, [], [],
           (primary_key_names m).map fun f => (Attr.colAttr m.sname f, "asc"),
           [], Option.none, Option.none⟩ := by
  unfold create_query
  rw [pkOrderLoop_ok fun f hf => getattr_of_pk hnd hf]
  rfl

/-- Witness for C2: the amended theorem applied to `Mdecl`, whose
primary keys are declared as b, a but ordered a, b. -/
theorem C2_default_order_sorted_pk_witness :
    (Mdecl.members.map Prod.fst).Nodup ∧
    create_query 1 Mdecl emptySearch false =
      .ok ⟨"T", [], [], [(.colAttr "T" "a", "asc"), (.colAttr "T" "b", "asc")],
           [], Option.none, Option.none⟩ :=
  ⟨by decide, by
    rw [C2_default_order_sorted_pk 1 Mdecl (by decide)]
    rfl⟩

/-- Counterexample to C2 as stated: for `Mdecl`, whose primary-key
columns are declared in the order b, a, the compiled default order is
a, b — the claim's declaration order is not used. -/
theorem C2_counterexample_declared_order :
    (create_query 1 Mdecl emptySearch false).map orderFieldNames = .ok ["a", "b"] ∧
    declared_primary_key_names Mdecl = ["b", "a"] ∧
    (["a", "b"] : List String) ≠ ["b", "a"] :=
  ⟨rfl, rfl, by decide⟩

/-! ## C4: zero-argument operators silently ignore a supplied argument -/

/-- C4 (amended): for every operator whose table entry is a
one-parameter lambda (is_null, is_not_null, asc, desc), compiling with
any supplied argument succeeds — the lambda is applied to the field
alone and the argument is ignored, so the result is independent of the
argument. -/
theorem C4_zero_arg_operator_ignores_argument (fuel : Nat) (m : SAModel)
    (fieldname op : String) (sem : SqlExpr → SqlExpr) (a a' : Arg)
    (relation : Option String) (attr : Attr)
    (hop : alookup OPERATORS op = some (.op1 sem))
    (hfield : m.getattr (pyStrOr relation fieldname) = some attr) :
    _create_operation (fuel + 1) m fieldname op a relation = .ok (sem (.attrE attr)) ∧
    _create_operation (fuel + 1) m fieldname op a relation =
      _create_operation (fuel + 1) m fieldname op a' relation := by
  have h1 : _create_operation (fuel + 1) m fieldname op a relation =
      .ok (sem (.attrE attr)) := by
    simp only [_create_operation, hop, hfield]
  have h2 : _create_operation (fuel + 1) m fieldname op a' relation =
      .ok (sem (.attrE attr)) := by
    simp only [_create_operation, hop, hfield]
  exact ⟨h1, h1.trans h2.symm⟩

/-- Witness for C4: is_null with the argument 20 compiles to the
IS NULL expression, identically for a different argument. -/
theorem C4_zero_arg_witness :
    alookup OPERATORS "is_null" = some (.op1 fun f => SqlExpr.isNullE f) ∧
    Mperson.getattr (pyStrOr Option.none "age") = some (.colAttr "Person" "age") ∧
    (_create_operation 1 Mperson "age" "is_null" (.lit (.int 20)) Option.none =
       .ok (.isNullE (.attrE (.colAttr "Person" "age"))) ∧
     _create_operation 1 Mperson "age" "is_null" (.lit (.int 20)) Option.none =
       _create_operation 1 Mperson "age" "is_null" (.lit (.str "x")) Option.none) :=
  ⟨rfl, rfl,
   C4_zero_arg_operator_ignores_argument 0 Mperson "age" "is_null" _ _ _ _ _ rfl rfl⟩

/-- Counterexample to C4 as stated: supplying the argument 20 to
is_null does not raise an arity error — the compile succeeds with the
argument ignored. -/
theorem C4_counterexample_argument_accepted :
    _create_operation 1 Mperson "age" "is_null" (.lit (.int 20)) Option.none =
      .ok (.isNullE (.attrE (.colAttr "Person" "age"))) := rfl

/-! ## C5: binary operators reject a missing argument -/

/-- C5: for every operator whose table entry is a two-parameter lambda
(the whole eq/ne/gt/lt/ge/le/like/ilike/in/not_in family), compiling
with argument None raises the TypeError directing callers to
is_null/is_not_null; the None is never compared as a literal. -/
theorem C5_missing_argument_rejected (fuel : Nat) (m : SAModel)
    (fieldname op : String) (sem : SqlExpr → Arg → SqlExpr)
    (relation : Option String) (attr : Attr)
    (hop : alookup OPERATORS op = some (.op2 sem))
    (hfield : m.getattr (pyStrOr relation fieldname) = some attr) :
    _create_operation (fuel + 1) m fieldname op (.lit .none) relation =
      .error (.typeError nullCompareMsg) := by
  simp only [_create_operation, hop, hfield]
  rfl

/-- Witness for C5: eq with a missing argument is rejected. -/
theorem C5_missing_argument_witness :
    alookup OPERATORS "eq" = some (.op2 fun f a => SqlExpr.eqE f a) ∧
    Mperson.getattr (pyStrOr Option.none "age") = some (.colAttr "Person" "age") ∧
    _create_operation 1 Mperson "age" "eq" (.lit .none) Option.none =
      .error (.typeError nullCompareMsg) :=
  ⟨rfl, rfl,
   C5_missing_argument_rejected 0 Mperson "age" "eq" _ _ _ rfl rfl⟩

/-! ## C6: double '__' separators are rejected, not split once -/

/-- Counterexample to C6 as stated: a field name with two '__'
separators makes `fname.split('__')` produce three parts, and the
two-name unpacking raises ValueError — the filter is rejected, not
compiled. -/
theorem C6_counterexample_double_separator :
    _create_filter 1 Mperson
      (.fdict [("name", .str "a__b__c"), ("value", .int 1), ("op", .str "eq")]) =
      .error (.valueError "too many values to unpack") := rfl

/-- C6 (amended): the field name is split on every occurrence of '__'
and must yield exactly two parts; with exactly one separator the
comparison is resolved through that single relation (relation = first
part, field = second part) by `_create_operation`. -/
theorem C6_single_separator_resolves_relation (fuel : Nat) (m : SAModel)
    (es : List (String × PyVal)) (fname rel fn : String) (val : PyVal) (op : String)
    (hname : alookup es "name" = some (.str fname))
    (hval : alookup es "value" = some val)
    (hsplit : pySplit fname "__" = [rel, fn])
    (hother : pyTruthy ((alookup es "otherfield").getD .none) = false)
    (hop : alookup es "op" = some (.str op)) :
    _create_filter fuel m (.fdict es) =
      _create_operation fuel m fn op (.lit val) (some rel) := by
  have hc : pyContains fname "__" = true := by
    unfold pyContains
    rw [hsplit]
    rfl
  simp only [_create_filter, hname, hval, hc, hsplit, hother, hop, if_true]
  rfl

/-- Witness for C6: `author__name` splits into the relation author and
the field name, and resolves through it. -/
theorem C6_single_separator_witness :
    alookup [("name", PyVal.str "author__name"), ("value", PyVal.str "John"),
             ("op", PyVal.str "eq")] "name" = some (.str "author__name") ∧
    pySplit "author__name" "__" = ["author", "name"] ∧
    _create_filter 1 Mpost
      (.fdict [("name", .str "author__name"), ("value", .str "John"),
               ("op", .str "eq")]) =
      _create_operation 1 Mpost "name" "eq" (.lit (.str "John")) (some "author") :=
  ⟨rfl, rfl,
   C6_single_separator_resolves_relation 1 Mpost _ "author__name" "author" "name"
     (.str "John") "eq" rfl rfl rfl rfl rfl⟩

/-! ## C3: conflicting projections are rejected first -/

/-- C3: for every value, options state and pair of non-None include
and exclude trees, to_dict raises the ValueError of convert.py:488-489
(the spec's ConflictingProjectionError) immediately: the result is the
error, and the include tree and options state come back exactly as
they went in — no attribute was fetched, nothing was evaluated, no
partial output exists. -/
theorem C3_conflicting_projection (fuel : Nat) (inst : PyVal) (opts : Opts)
    (inc exc : PyVal) (hinc : isNoneV inc = false) (hexc : isNoneV exc = false) :
    to_dict fuel inst opts inc exc = (.error (.valueError conflictMsg), inc, opts) := by
  unfold to_dict
  rw [hinc, hexc]
  rfl

/-- Witness for C3: a primitive serialized under both an include and
an exclude tree errors with both states unchanged. -/
theorem C3_conflicting_projection_witness :
    isNoneV (.dict []) = false ∧ isNoneV (.dict [("email", PyVal.bool true)]) = false ∧
    to_dict 5 (.int 1) ⟨[]⟩ (.dict []) (.dict [("email", .bool true)]) =
      (.error (.valueError conflictMsg), .dict [], ⟨[]⟩) :=
  ⟨rfl, rfl, C3_conflicting_projection 5 (.int 1) ⟨[]⟩ _ _ rfl rfl⟩

/-! ## C9: exclude is not frame-preserving -/

/-- C9: the record R9 refutes the exclude-only frame property.  Its
default serialization contains `email` (the Query is iterated) but not
`notes`: processing the email Query evaluates
`options['execute_queries']` on the shared defaultdict, which inserts
False, and the later unmaterialized `notes` is then skipped at
convert.py:551.  Excluding `{email: true}` skips email before that
flag is poisoned, so `notes` now appears: the output is not the
default output minus `email`. -/
theorem C9_exclude_not_frame_preserving :
    (to_dict 6 R9 ⟨[]⟩ .none .none).1 =
      .ok (.dict [("id", .int 1), ("email", .list [.str "a@b"])]) ∧
    (to_dict 6 R9 ⟨[]⟩ .none (.dict [("email", .bool true)])).1 =
      .ok (.dict [("id", .int 1), ("notes", .str "n")]) ∧
    ((["id", "email"].filter fun k => k ≠ "email") = ["id"] ∧
     (["id", "notes"] : List String) ≠ ["id"]) :=
  ⟨rfl, rfl, by decide⟩

/-! ## Scope-threading lemmas -/

/-- For a non-dict include, to_deep has no side effect: the parent
include comes back unchanged and no write-back is needed. -/
theorem to_deep_non_dict (inc exc : PyVal) (key : String)
    (h : isDictV inc = false) :
    (to_deep inc exc key).parentInc = inc ∧ (to_deep inc exc key).wb = false := by
  cases inc
  case dict es => simp [isDictV] at h
  all_goals cases exc <;> try exact ⟨rfl, rfl⟩
  all_goals
    rename_i es2
    cases halk : alookup es2 key <;> simp [to_deep, halk]

/-- For a non-dict include and a None exclude, to_deep yields the
trivial child scope (include False, exclude None). -/
theorem to_deep_trivial (inc : PyVal) (key : String) (h : isDictV inc = false) :
    to_deep inc .none key = ⟨.bool false, .none, inc, false⟩ := by
  cases inc <;> first | rfl | simp [isDictV] at h

/-- For a dict include missing the key and a None exclude, to_deep
inserts `key -> False` via setdefault and hands the child the
defaulted False. -/
theorem to_deep_dict_absent {es : List (String × PyVal)} {k : String}
    (h : alookup es k = Option.none) :
    to_deep (.dict es) .none k =
      ⟨.bool false, .none, .dict (es ++ [(k, .bool false)]), true⟩ := by
  simp [to_deep, h]

/-- Association lookup distributes over append. -/
theorem alookup_append {α : Type} (l1 l2 : List (String × α)) (key : String) :
    alookup (l1 ++ l2) key =
      match alookup l1 key with
      | some v => some v
      | Option.none => alookup l2 key := by
  induction l1 with
  | nil => rfl
  | cons hd tl ih =>
    obtain ⟨k, v⟩ := hd
    by_cases hk : k = key <;> simp [alookup, hk, ih]

/-- Assigning a fresh key appends the entry. -/
theorem dictSet_absent {α : Type} {l : List (String × α)} {k : String} (v : α)
    (h : alookup l k = Option.none) : dictSet l k v = l ++ [(k, v)] := by
  induction l with
  | nil => rfl
  | cons hd tl ih =>
    obtain ⟨k2, v2⟩ := hd
    by_cases hk : k2 = k
    · subst hk; simp [alookup] at h
    · simp only [alookup, hk, if_false, if_neg] at h
      simp only [dictSet, hk, if_false, if_neg, List.cons_append, List.append_eq]
      rw [ih h]

/-- Reassigning the key just appended replaces its value. -/
theorem dictSet_append_absent {α : Type} {l : List (String × α)} {k : String}
    (x y : α) (h : alookup l k = Option.none) :
    dictSet (l ++ [(k, x)]) k y = l ++ [(k, y)] := by
  induction l with
  | nil => simp [dictSet]
  | cons hd tl ih =>
    obtain ⟨k2, v2⟩ := hd
    by_cases hk : k2 = k
    · subst hk; simp [alookup] at h
    · simp only [alookup, hk, if_false, if_neg] at h
      simp only [dictSet, hk, if_false, if_neg, List.cons_append, List.append_eq]
      rw [ih h]

/-- The mapping loop leaves a non-dict include unchanged, whatever the
child does (no write-back happens). -/
theorem itemsLoop_keeps (child : PyVal → Opts → PyVal → PyVal → SerRes)
    (inc exc : PyVal) (h : isDictV inc = false) :
    ∀ (es : List (String × PyVal)) (opts : Opts) (acc : List (String × PyVal)),
    (itemsLoop child es opts inc exc acc).2.1 = inc := by
  intro es
  induction es with
  | nil => intro opts acc; rfl
  | cons hd tl ih =>
    intro opts acc
    obtain ⟨k, v⟩ := hd
    obtain ⟨hp, hw⟩ := to_deep_non_dict inc exc k h
    rcases hc : child v opts (to_deep inc exc k).dinc (to_deep inc exc k).dexc
      with ⟨r, ci, o2⟩
    cases r with
    | error e => simp [itemsLoop, hc, hw, hp]
    | ok rv =>
      simp only [itemsLoop, hc, hw, hp, Bool.false_eq_true, if_false]
      exact ih _ _

/-- The sequence loop leaves a non-dict include unchanged, provided
the child (which it threads) does. -/
theorem elemsLoop_keeps (child : PyVal → Opts → PyVal → PyVal → SerRes)
    (inc exc : PyVal)
    (hchild : ∀ v o, (child v o inc exc).2.1 = inc) :
    ∀ (xs : List PyVal) (opts : Opts) (acc : List PyVal),
    (elemsLoop child xs opts inc exc acc).2.1 = inc := by
  intro xs
  induction xs with
  | nil => intro opts acc; rfl
  | cons x tl ih =>
    intro opts acc
    rcases hc : child x opts inc exc with ⟨r, inc2, o2⟩
    have h2 : inc2 = inc := by
      have hh := hchild x opts
      rw [hc] at hh
      exact hh
    subst h2
    cases r with
    | error e => simp [elemsLoop, hc]
    | ok rv =>
      simp only [elemsLoop, hc]
      exact ih _ _

/-- The record-attribute loop leaves a non-dict include unchanged. -/
theorem recordLoop_keeps (child : PyVal → Opts → PyVal → PyVal → SerRes)
    (columns hybrids : List String) (attrVals : List (String × PyVal))
    (matKeys : List String) (inc exc : PyVal) (h : isDictV inc = false) :
    ∀ (chain : List String) (opts : Opts) (acc : List (String × PyVal)),
    (recordLoop child columns hybrids attrVals matKeys chain opts inc exc acc).2.1 = inc := by
  intro chain
  induction chain with
  | nil => intro opts acc; rfl
  | cons c tl ih =>
    intro opts acc
    obtain ⟨hp, hw⟩ := to_deep_non_dict inc exc c h
    simp only [recordLoop, hp, hw, Bool.false_eq_true, if_false]
    repeat' split
    all_goals first
      | rfl
      | exact ih _ _

/-- to_dict leaves a non-dict include tree unchanged. -/
theorem to_dict_keeps_non_dict_inc (fuel : Nat) (v : PyVal) (opts : Opts)
    (inc exc : PyVal) (h : isDictV inc = false) :
    (to_dict fuel v opts inc exc).2.1 = inc := by
  induction fuel generalizing v opts with
  | zero =>
    unfold to_dict
    split
    · rfl
    · rfl
  | succ fuel ih =>
    unfold to_dict
    split
    · rfl
    · cases v
      case dict es => exact itemsLoop_keeps _ inc exc h es opts []
      case list xs => exact elemsLoop_keeps _ inc exc (fun v o => ih v o) xs opts []
      case query rs => exact elemsLoop_keeps _ inc exc (fun v o => ih v o) rs opts []
      case obj columns relations proxies hybrids attributes attrVals matKeys =>
        cases inc
        case dict ies => simp [isDictV] at h
        all_goals exact recordLoop_keeps _ _ _ _ _ _ exc h _ opts []
      all_goals rfl

/-! ## C10: serialization mutates the caller-supplied include tree -/

/-- C10: serializing a one-entry mapping whose key is absent from the
dict-shaped include tree leaves the include tree changed: computing
the child scope runs `include.setdefault(key, False)`, which inserts
`key -> False` into the caller's tree, whatever the entry's value and
whether or not its serialization succeeds.  The mutated tree differs
from the one passed in. -/
theorem C10_serialize_mutates_include_tree (fuel : Nat)
    (es : List (String × PyVal)) (k : String) (v : PyVal) (opts : Opts)
    (habs : alookup es k = Option.none) :
    (to_dict (fuel + 1) (.dict [(k, v)]) opts (.dict es) .none).2.1 =
      .dict (es ++ [(k, .bool false)]) ∧
    PyVal.dict (es ++ [(k, .bool false)]) ≠ .dict es := by
  constructor
  · have hstep : to_dict (fuel + 1) (.dict [(k, v)]) opts (.dict es) .none =
        itemsLoop (to_dict fuel) [(k, v)] opts (.dict es) .none [] := rfl
    rw [hstep]
    rcases hc : to_dict fuel v opts (.bool false) PyVal.none with ⟨r, ci, o2⟩
    have hci : ci = .bool false := by
      have hh := to_dict_keeps_non_dict_inc fuel v opts (.bool false) .none rfl
      rw [hc] at hh
      exact hh
    subst hci
    have htd := to_deep_dict_absent habs
    cases r with
    | error e =>
      simp only [itemsLoop, htd, hc, if_true]
      simp [incWriteBack, dictSet_append_absent _ _ habs]
    | ok rv =>
      simp only [itemsLoop, htd, hc, if_true]
      simp [incWriteBack, dictSet_append_absent _ _ habs, itemsLoop]
  · intro hcontra
    have hlen := congrArg (fun w => match w with
      | PyVal.dict l => l.length
      | _ => 0) hcontra
    simp at hlen

/-- Witness for C10: a concrete mapping and include tree; the tree
gains the entry a -> False. -/
theorem C10_serialize_mutates_include_tree_witness :
    alookup [("b", PyVal.bool true)] "a" = Option.none ∧
    ((to_dict 2 (.dict [("a", PyVal.int 7)]) ⟨[]⟩
        (.dict [("b", .bool true)]) .none).2.1 =
      .dict [("b", .bool true), ("a", .bool false)] ∧
     PyVal.dict [("b", PyVal.bool true), ("a", PyVal.bool false)] ≠
       .dict [("b", .bool true)]) :=
  ⟨rfl, C10_serialize_mutates_include_tree 1 [("b", .bool true)] "a" (.int 7) ⟨[]⟩ rfl⟩

/-! ## C8: idempotence on plain data -/

/-- Every value has positive size. -/
theorem psize_pos (v : PyVal) : 0 < psize v := by
  cases v <;> simp only [psize] <;> omega

/-- An entry's value is smaller than the entries list. -/
theorem psize_lt_of_mem_entries {es : List (String × PyVal)}
    {kv : String × PyVal} (h : kv ∈ es) : psize kv.2 < psizeEntries es := by
  induction es with
  | nil => cases h
  | cons hd tl ih =>
    rcases List.mem_cons.mp h with heq | hmem
    · subst heq
      simp only [psizeEntries]
      omega
    · have := ih hmem
      simp only [psizeEntries]
      omega

/-- An element is smaller than the element list. -/
theorem psize_lt_of_mem_list {xs : List PyVal} {x : PyVal} (h : x ∈ xs) :
    psize x < psizeList xs := by
  induction xs with
  | nil => cases h
  | cons hd tl ih =>
    rcases List.mem_cons.mp h with heq | hmem
    · subst heq
      simp only [psizeList]
      omega
    · have := ih hmem
      simp only [psizeList]
      omega

/-- If every entry of a mapping serializes to itself under the trivial
child scope, the mapping loop rebuilds the mapping key by key. -/
theorem itemsLoop_plain (child : PyVal → Opts → PyVal → PyVal → SerRes)
    (inc : PyVal) (hincd : isDictV inc = false) :
    ∀ (es acc : List (String × PyVal)) (opts : Opts),
    (∀ kv ∈ es, ∀ o : Opts,
      child kv.2 o (.bool false) PyVal.none = (.ok kv.2, .bool false, o)) →
    (∀ kv ∈ es, alookup acc kv.1 = Option.none) →
    (es.map Prod.fst).Nodup →
    itemsLoop child es opts inc .none acc = (.ok (.dict (acc ++ es)), inc, opts) := by
  intro es
  induction es with
  | nil => intro acc opts _ _ _; simp [itemsLoop]
  | cons hd tl ih =>
    intro acc opts hch hacc hnd
    obtain ⟨k, v⟩ := hd
    have htd := to_deep_trivial inc k hincd
    have hc : child v opts (PyVal.bool false) PyVal.none =
        (Except.ok v, PyVal.bool false, opts) :=
      hch (k, v) (List.mem_cons_self _ _) opts
    have hacchd : alookup acc k = Option.none :=
      hacc (k, v) (List.mem_cons_self _ _)
    have hch2 : ∀ kv ∈ tl, ∀ o : Opts,
        child kv.2 o (.bool false) PyVal.none = (.ok kv.2, .bool false, o) :=
      fun kv hkv o => hch kv (List.mem_cons_of_mem _ hkv) o
    have hacc2 : ∀ kv ∈ tl, alookup (acc ++ [(k, v)]) kv.1 = Option.none := by
      intro kv hkv
      rw [alookup_append, hacc kv (List.mem_cons_of_mem _ hkv)]
      have hne : kv.1 ≠ k := by
        simp only [List.map_cons, List.nodup_cons] at hnd
        intro hkk
        exact hnd.1 (hkk ▸ List.mem_map.mpr ⟨kv, hkv, rfl⟩)
      have hne2 : ¬ (k = kv.1) := fun hkk => hne hkk.symm
      simp [alookup, hne2]
    have hnd2 : (tl.map Prod.fst).Nodup := by
      simp only [List.map_cons, List.nodup_cons] at hnd
      exact hnd.2
    simp only [itemsLoop, htd, hc, Bool.false_eq_true, if_false]
    rw [dictSet_absent v hacchd]
    rw [ih (acc ++ [(k, v)]) opts hch2 hacc2 hnd2]
    simp

/-- If every element serializes to itself under the propagated scope,
the sequence loop rebuilds the sequence element by element. -/
theorem elemsLoop_plain (child : PyVal → Opts → PyVal → PyVal → SerRes)
    (inc : PyVal) :
    ∀ (xs acc : List PyVal) (opts : Opts),
    (∀ x ∈ xs, ∀ o : Opts, child x o inc .none = (.ok x, inc, o)) →
    elemsLoop child xs opts inc .none acc = (.ok (.list (acc ++ xs)), inc, opts) := by
  intro xs
  induction xs with
  | nil => intro acc opts _; simp [elemsLoop]
  | cons x tl ih =>
    intro acc opts hch
    have hc := hch x (List.mem_cons_self _ _) opts
    simp only [elemsLoop, hc]
    rw [ih (acc ++ [x]) opts (fun y hy o => hch y (List.mem_cons_of_mem _ hy) o)]
    simp

/-- Serializing a plain value under no exclude and a None or False
include returns the value itself and leaves the include tree and the
options state untouched. -/
theorem to_dict_plain : ∀ (fuel : Nat) (v : PyVal) (opts : Opts) (inc : PyVal),
    Plain v → psize v ≤ fuel → (inc = .none ∨ inc = .bool false) →
    to_dict fuel v opts inc .none = (.ok v, inc, opts) := by
  intro fuel
  induction fuel with
  | zero =>
    intro v opts inc _ hsz _
    have := psize_pos v
    omega
  | succ fuel ih =>
    intro v opts inc hp hsz hinc
    have hincd : isDictV inc = false := by
      rcases hinc with h | h <;> subst h <;> rfl
    cases hp with
    | noneP => rfl
    | boolP b => rfl
    | intP n => rfl
    | strP s => rfl
    | dictP es hnd h =>
      have hstep : to_dict (fuel + 1) (.dict es) opts inc .none =
          itemsLoop (to_dict fuel) es opts inc .none [] := rfl
      rw [hstep]
      have hch : ∀ kv ∈ es, ∀ o : Opts,
          to_dict fuel kv.2 o (.bool false) PyVal.none = (.ok kv.2, .bool false, o) := by
        intro kv hkv o
        have h1 := psize_lt_of_mem_entries hkv
        have h2 : psize (PyVal.dict es) = 1 + psizeEntries es := rfl
        exact ih kv.2 o (.bool false) (h kv hkv) (by omega) (Or.inr rfl)
      rw [itemsLoop_plain (to_dict fuel) inc hincd es [] opts hch
        (fun kv _ => rfl) hnd]
      simp
    | listP xs h =>
      have hstep : to_dict (fuel + 1) (.list xs) opts inc .none =
          elemsLoop (to_dict fuel) xs opts inc .none [] := rfl
      rw [hstep]
      have hch : ∀ x ∈ xs, ∀ o : Opts,
          to_dict fuel x o inc PyVal.none = (.ok x, inc, o) := by
        intro x hx o
        have h1 := psize_lt_of_mem_list hx
        have h2 : psize (PyVal.list xs) = 1 + psizeList xs := rfl
        exact ih x o inc (h x hx) (by omega) hinc
      rw [elemsLoop_plain (to_dict fuel) inc xs [] opts hch]
      simp

/-- C8: serializing an already-plain value (null, primitive, or a
nested mapping/sequence of such values) with no include and no exclude
returns a structurally equal value: primitives unchanged, mappings
rebuilt key by key, sequences rebuilt element by element with the same
scope propagated to every element. -/
theorem C8_plain_round_trip (v : PyVal) (opts : Opts) (fuel : Nat)
    (hp : Plain v) (hsz : psize v ≤ fuel) :
    to_dict fuel v opts .none .none = (.ok v, .none, opts) :=
  to_dict_plain fuel v opts .none hp hsz (Or.inl rfl)

/-- Witness for C8: a nested plain mapping round-trips unchanged. -/
theorem C8_plain_round_trip_witness :
    Plain plainSample ∧ psize plainSample ≤ 12 ∧
    to_dict 12 plainSample ⟨[]⟩ .none .none = (.ok plainSample, .none, ⟨[]⟩) := by
  have hp : Plain plainSample := by
    apply Plain.dictP
    · decide
    · intro kv hkv
      simp only [plainSample, List.mem_cons, List.mem_singleton,
        List.not_mem_nil, or_false] at hkv
      rcases hkv with hkv | hkv <;> subst hkv
      · exact Plain.intP 1
      · apply Plain.listP
        intro x hx
        simp only [List.mem_cons, List.mem_singleton, List.not_mem_nil,
          or_false] at hx
        rcases hx with hx | hx <;> subst hx
        · exact Plain.noneP
        · exact Plain.strP "x"
  exact ⟨hp, by decide, C8_plain_round_trip plainSample ⟨[]⟩ 12 hp (by decide)⟩

end TRestless
